import Mathlib

/-! Verification development for the Cardano wallet manager
(`wallet_manager.js` and its extended module with `sendAda`,
`balanceCheckAndTransfer` and `manageWallets`).

The JavaScript module is shallowly embedded below.  The cryptographic
primitives supplied by the external libraries (`bip39`,
`@emurgo/cardano-serialization-lib`) are deterministic pure functions of
their arguments; they are modelled as an abstract record `Crypto` of
functions over an abstract key representation (`Nat`), so every theorem
holds for every implementation of the primitives.  Monetary amounts are
exact: lovelace values are integers, ADA values are rationals (the
JavaScript numbers involved — lovelace totals far below 2^53, and the
constant 1.0 — are exact in IEEE double precision at the scales the
program handles).  Fallible operations (a thrown exception caught by a
caller) are modelled with `Option`/`Except`. -/

namespace WalletVerify

/-- The NETWORK configuration values the program accepts (`mainnet`,
`preprod`, `preview`); `preprod` is the default.  The configuration is only
ever passed to the Blockfrost collaborator, never to address creation. -/
inductive Network where
  | mainnet
  | preprod
  | preview
deriving DecidableEq

/-- A base address as assembled by `CardanoWasm.BaseAddress.new`: a network
discriminator plus the hashes of the payment (spending) and stake public
keys. -/
structure BaseAddr where
  network_id : Nat
  paymentKeyHash : Nat
  stakeKeyHash : Nat
deriving DecidableEq

/-- An unspent output as returned by the Blockfrost UTXO query: transaction
hash, output index, and its lovelace value (the `quantity` of the
`lovelace` unit, parsed as an integer). -/
structure Utxo where
  tx_hash : String
  output_index : Nat
  lovelace : Nat
deriving DecidableEq

/-- A transaction output: destination address (bech32 string) and amount in
lovelace.  `CardanoWasm.BigNum.from_str` rejects negative amounts, which the
embedding of `sendAda` reflects with an explicit guard. -/
structure TxOut where
  address : String
  amount : Int
deriving DecidableEq

/-- The unsigned transaction body built by `CardanoWasm.TransactionBody.new`:
inputs, outputs, fee, and the upper validity slot (TTL).  The type contains
no witness data, so any function of a `TxBody` is independent of witnesses
by construction. -/
structure TxBody where
  inputs : List Utxo
  outputs : List TxOut
  fee : Int
  ttl : Nat
deriving DecidableEq

/-- A vkey witness produced by `CardanoWasm.make_vkey_witness`: the public
verification key and the signature over the transaction-body digest. -/
structure VkeyWitness where
  vkey : Nat
  signature : Nat
deriving DecidableEq

/-- The signed transaction assembled by `CardanoWasm.Transaction.new(body,
witnesses, undefined)`: body, vkey witness list, and the (absent) metadata
field. -/
structure SignedTx where
  body : TxBody
  vkeyWitnesses : List VkeyWitness
  metadata : Option Unit
deriving DecidableEq

/-- Wallet information returned by `createTestnetWallet`:
`{ mnemonic, address, type }`. -/
structure WalletInfo where
  mnemonic : String
  address : String
  type : String
deriving DecidableEq

/-- A persisted wallet record `{ name, address, mnemonic, type }` as written
by `saveWalletsToFile`. -/
structure WalletRecord where
  name : String
  address : String
  mnemonic : String
  type : String
deriving DecidableEq

/-- The deterministic cryptographic primitives the program calls in the
external libraries, abstracted over an opaque key representation (`Nat`).
`generateMnemonic` models `bip39.generateMnemonic(256)` as a function of the
process random state; `mnemonicToEntropy` models `bip39.mnemonicToEntropy`,
returning `none` for an invalid mnemonic (the library throws);
`fromBip39Entropy` models `Bip32PrivateKey.from_bip39_entropy` with the
empty password; `derive`, `toPublic`, `keyHash` model child derivation,
`to_public` and `to_raw_key().hash()`; `toBech32` models
`to_address().to_bech32()`; `hashTx` models `hash_transaction`; `sign d k`
models the Ed25519 signature of digest `d` under key `k` inside
`make_vkey_witness`. -/
structure Crypto where
  generateMnemonic : Nat → String
  mnemonicToEntropy : String → Option String
  fromBip39Entropy : String → Nat
  derive : Nat → Nat → Nat
  toPublic : Nat → Nat
  keyHash : Nat → Nat
  toBech32 : BaseAddr → String
  hashTx : TxBody → Nat
  sign : Nat → Nat → Nat

/-- The hardened-derivation offset `0x80000000` added to the purpose, coin
type and account indices. -/
def hardenedOffset : Nat := 0x80000000

/-- `CardanoWasm.NetworkInfo.testnet().network_id()`. -/
def testnetNetworkId : Nat := 0

/-- `CardanoWasm.NetworkInfo.mainnet().network_id()`. -/
def mainnetNetworkId : Nat := 1

/-- The fixed fee buffer of `sendAda`: 200000 lovelace (0.2 ADA). -/
def feeBuffer : Int := 200000

/-- The hardened account path m/1852H/1815H/0H applied to the root key, as
in `createTestnetWallet` and `getPrivateKeyFromMnemonic`. -/
def deriveAccountKey (C : Crypto) (rootKey : Nat) : Nat :=
  C.derive (C.derive (C.derive rootKey (1852 + hardenedOffset))
    (1815 + hardenedOffset)) (0 + hardenedOffset)

/-- The base address `createTestnetWallet` assembles: the hardcoded testnet
network id together with the key hashes of the spending public key
(role 0, index 0) and the staking public key (role 2, index 0), both
non-hardened children of the account key. -/
def walletBaseAddr (C : Crypto) (accountKey : Nat) : BaseAddr :=
  { network_id := testnetNetworkId,
    paymentKeyHash := C.keyHash (C.toPublic (C.derive (C.derive accountKey 0) 0)),
    stakeKeyHash := C.keyHash (C.toPublic (C.derive (C.derive accountKey 2) 0)) }

/-- Embeds `createTestnetWallet(mnemonic = null)`.  `rng` is the process
random state consumed only when no mnemonic is supplied; `netCfg` is the
ambient NETWORK configuration, which the function never reads.  An invalid
mnemonic makes `bip39.mnemonicToEntropy` throw, which the function rethrows
after logging: modelled as `none`. -/
def createTestnetWallet (C : Crypto) (netCfg : Network) (rng : Nat)
    (mnemonicArg : Option String) : Option WalletInfo :=
  let mnemonic := mnemonicArg.getD (C.generateMnemonic rng)
  match C.mnemonicToEntropy mnemonic with
  | none => none
  | some seed =>
    let rootKey := C.fromBip39Entropy seed
    let accountKey := deriveAccountKey C rootKey
    some { mnemonic := mnemonic,
           address := C.toBech32 (walletBaseAddr C accountKey),
           type := "Testnet Address" }

/-- Embeds `getPrivateKeyFromMnemonic`: entropy from the mnemonic, root key
from the entropy, then the hardened account path; rethrows (models `none`)
on an invalid mnemonic. -/
def getPrivateKeyFromMnemonic (C : Crypto) (mnemonic : String) : Option Nat :=
  (C.mnemonicToEntropy mnemonic).map fun seed =>
    deriveAccountKey C (C.fromBip39Entropy seed)

/-- One entry of the `amount` array of a Blockfrost address-info response. -/
structure AmountEntry where
  unit : String
  quantity : Nat
deriving DecidableEq

/-- A Blockfrost address-info response (the part `fetchBalance` reads). -/
structure AddressInfo where
  amount : List AmountEntry
deriving DecidableEq

/-- An error thrown by the Blockfrost client: its `status_code`. -/
structure ApiError where
  status_code : Nat
deriving DecidableEq

/-- The balance value `fetchBalance` returns; the JavaScript strings
`lovelace` and `ada` both represent the single lovelace quantity (`ada` is
its formatted value divided by 10^6), so the record keeps the lovelace
integer. -/
structure Balance where
  lovelace : Nat
deriving DecidableEq

/-- Embeds `fetchBalance(address)`.  `projectId` is the configured
Blockfrost credential and `resp` the collaborator's answer for the queried
address.  With no credential the lookup is skipped and zero returned.  A 404
from the collaborator is mapped to zero by the inner handler.  Every other
collaborator error is rethrown by the inner handler but then caught by the
function's outer `catch`, which logs and returns zero as well — so the
result is always `Except.ok`. -/
def fetchBalance (projectId : String) (resp : Except ApiError AddressInfo) :
    Except ApiError Balance :=
  if projectId = "" then .ok ⟨0⟩
  else
    match resp with
    | .ok info =>
      .ok ⟨(((info.amount.find? fun a => a.unit == "lovelace").map
        AmountEntry.quantity).getD 0)⟩
    | .error e =>
      if e.status_code = 404 then .ok ⟨0⟩
      else .ok ⟨0⟩

/-- `Math.floor(amountAda * 1000000)`: the ADA-to-lovelace conversion at the
top of `sendAda`. -/
def adaToLovelace (amountAda : ℚ) : Int := ⌊amountAda * 1000000⌋

/-- The lovelace total of a list of UTXOs, as an integer. -/
def utxoSum (l : List Utxo) : Int := (l.map fun u => (u.lovelace : Int)).sum

/-- Embeds the input-selection loop of `sendAda` (`for (const utxo of
utxos) ... break`): each UTXO is appended to the inputs and its value added
to the running total `acc`; the loop stops as soon as the total reaches
`threshold`.  Returns the selected inputs and the final total. -/
def selectLoop (utxos : List Utxo) (acc threshold : Int) : List Utxo × Int :=
  match utxos with
  | [] => ([], acc)
  | u :: rest =>
    let acc2 := acc + (u.lovelace : Int)
    if threshold ≤ acc2 then ([u], acc2)
    else
      let r := selectLoop rest acc2 threshold
      (u :: r.1, r.2)

/-- `CardanoWasm.make_vkey_witness(txBodyHash, privateKey)`: the public key
paired with the signature over the body hash. -/
def makeVkeyWitness (C : Crypto) (bodyHash privKey : Nat) : VkeyWitness :=
  ⟨C.toPublic privKey, C.sign bodyHash privKey⟩

/-- The transaction body `sendAda` builds once selection succeeded: the
selected inputs, the payment output to the receiver, the change output to
the sender's own address exactly when `changeAmount > 0`, the fixed fee,
and the TTL `latestSlot + 10000`. -/
def sendBody (senderWallet : WalletRecord) (receiverAddress : String)
    (amountAda : ℚ) (utxos : List Utxo) (latestSlot : Nat) : TxBody :=
  let amountLovelace := adaToLovelace amountAda
  let totalInputAmount := (selectLoop utxos 0 (amountLovelace + feeBuffer)).2
  let changeAmount := totalInputAmount - amountLovelace - feeBuffer
  { inputs := (selectLoop utxos 0 (amountLovelace + feeBuffer)).1,
    outputs := TxOut.mk receiverAddress amountLovelace ::
      (if 0 < changeAmount then [TxOut.mk senderWallet.address changeAmount]
       else []),
    fee := feeBuffer,
    ttl := latestSlot + 10000 }

/-- The signed transaction `sendAda` assembles: the body, a single vkey
witness made from the body hash and the spending private key (the account
key's non-hardened role-0/index-0 child), and no metadata
(`Transaction.new(txBody, witnesses, undefined)`). -/
def sendSigned (C : Crypto) (accountKey : Nat) (senderWallet : WalletRecord)
    (receiverAddress : String) (amountAda : ℚ) (utxos : List Utxo)
    (latestSlot : Nat) : SignedTx :=
  let txBody := sendBody senderWallet receiverAddress amountAda utxos latestSlot
  let spendingPrivateKey := C.derive (C.derive accountKey 0) 0
  { body := txBody,
    vkeyWitnesses := [makeVkeyWitness C (C.hashTx txBody) spendingPrivateKey],
    metadata := none }

/-- The construction half of `sendAda` after the account key is obtained:
empty-UTXO guard, input selection, insufficient-funds guard, then the body
and witness assembly.  The guard `adaToLovelace amountAda < 0` reflects
`BigNum.from_str` throwing on a negative amount string (caught by
`sendAda`, which then returns without a transaction). -/
def buildAndSign (C : Crypto) (accountKey : Nat) (senderWallet : WalletRecord)
    (receiverAddress : String) (amountAda : ℚ) (utxos : List Utxo)
    (latestSlot : Nat) : Option SignedTx :=
  if utxos.length = 0 then none
  else if (selectLoop utxos 0 (adaToLovelace amountAda + feeBuffer)).2 <
      adaToLovelace amountAda + feeBuffer then none
  else if adaToLovelace amountAda < 0 then none
  else some (sendSigned C accountKey senderWallet receiverAddress amountAda
    utxos latestSlot)

/-- Embeds `sendAda(senderWallet, receiverAddress, amountAda)` up to (and
excluding) submission: `utxos` is the collaborator's UTXO list for the
sender's address and `latestSlot` the slot of the latest block.  `none`
means the function returned `false` without assembling a signed
transaction; `some tx` means `tx` is the signed transaction it serializes
and submits. -/
def sendAda (C : Crypto) (senderWallet : WalletRecord)
    (receiverAddress : String) (amountAda : ℚ) (utxos : List Utxo)
    (latestSlot : Nat) : Option SignedTx :=
  (getPrivateKeyFromMnemonic C senderWallet.mnemonic).bind fun accountKey =>
    buildAndSign C accountKey senderWallet receiverAddress amountAda utxos
      latestSlot

/-- A wallet paired with its fetched balance, as built inside
`balanceCheckAndTransfer` (`walletsWithBalance`).  The JavaScript object
keeps both the lovelace string and the parsed ADA float; the record keeps
the lovelace integer, with the ADA value recovered by `WB.ada`. -/
structure WB where
  wallet : WalletRecord
  lovelace : Nat
deriving DecidableEq

/-- The `balance.ada` number compared by the sort and the transfer test:
the lovelace quantity divided by 10^6 (exact at the magnitudes the program
handles). -/
def WB.ada (w : WB) : ℚ := (w.lovelace : ℚ) / 1000000

/-- The descending-balance ordering used by
`walletsWithBalance.sort((a, b) => b.balance.ada - a.balance.ada)`:
`a` may come before `b` when `a`'s ADA balance is at least `b`'s. -/
def adaGE (a b : WB) : Prop := WB.ada b ≤ WB.ada a

instance : DecidableRel adaGE := fun a b =>
  inferInstanceAs (Decidable (WB.ada b ≤ WB.ada a))

instance : IsTotal WB adaGE := ⟨fun a b => le_total (WB.ada b) (WB.ada a)⟩

instance : IsTrans WB adaGE := ⟨fun _ _ _ hab hbc => le_trans hbc hab⟩

/-- The transfer `balanceCheckAndTransfer` hands to `sendAda`: the sending
wallet (`walletsWithBalance[0]`), the receiver's address
(`walletsWithBalance[1].address`), and the ADA amount (the literal 1.0). -/
structure TransferCall where
  sender : WalletRecord
  receiverAddress : String
  amountAda : ℚ
deriving DecidableEq

/-- The decision core of `balanceCheckAndTransfer` on the fetched balances:
sort descending by ADA balance, then send 1.0 ADA from the first wallet to
the second exactly when the first's balance strictly exceeds the
second's. -/
def transferDecision (wbs : List WB) : Option TransferCall :=
  match List.insertionSort adaGE wbs with
  | w0 :: w1 :: _ =>
    if WB.ada w1 < WB.ada w0 then
      some ⟨w0.wallet, w1.wallet.address, 1⟩
    else none
  | _ => none

/-- The balance-fetch loop of `balanceCheckAndTransfer`: one `fetchBalance`
call per wallet (an `Except.error` would make the enclosing `catch` return
without a transfer; `fetchBalance` as written never produces one). -/
def withBalances (projectId : String)
    (api : String → Except ApiError AddressInfo)
    (wallets : List WalletRecord) : Except ApiError (List WB) :=
  wallets.mapM fun w =>
    (fetchBalance projectId (api w.address)).map fun b => WB.mk w b.lovelace

/-- Embeds `balanceCheckAndTransfer(wallets)`: fewer than two wallets means
no transfer; otherwise the balances are fetched and the sorted comparison
decides the transfer.  The returned value is the `sendAda` call the
function makes, if any. -/
def balanceCheckAndTransfer (projectId : String)
    (api : String → Except ApiError AddressInfo)
    (wallets : List WalletRecord) : Option TransferCall :=
  if wallets.length < 2 then none
  else
    match withBalances projectId api wallets with
    | .error _ => none
    | .ok wbs => transferDecision wbs

/-- The state of the persisted wallet file `wallets.txt`: `none` when the
file is absent; `some none` when it is present but its content does not
parse to a wallet list (`JSON.parse` throws, or yields a non-list value);
`some (some ws)` when it parses to the wallet list `ws`. -/
abbrev FileState := Option (Option (List WalletRecord))

/-- Embeds `loadWalletsFromFile`: `null` when the file does not exist and
`null` when reading or parsing fails (the `catch` branch); the parsed list
otherwise. -/
def loadWalletsFromFile (fs : FileState) : Option (List WalletRecord) :=
  match fs with
  | none => none
  | some content => content

/-- Embeds `saveWalletsToFile`: each wallet is written as the record
`{ name, address, mnemonic, type }`. -/
def saveWalletsToFile (wallets : List WalletRecord) : List WalletRecord :=
  wallets.map fun w => ⟨w.name, w.address, w.mnemonic, w.type⟩

/-- The outcome of one `manageWallets` run: the wallet file afterwards, the
wallets created during the run, and the `sendAda` call made by
`balanceCheckAndTransfer`, if any. -/
structure ManageResult where
  fileAfter : FileState
  created : List WalletRecord
  transfer : Option TransferCall
deriving DecidableEq

/-- Embeds `manageWallets()`.  `rng1`, `rng2` are the random states consumed
by the two `createTestnetWallet()` calls of the creation branch.  When
`loadWalletsFromFile` yields a wallet list, balances are displayed and
`balanceCheckAndTransfer` runs — the file is untouched and nothing is
created.  Otherwise two fresh wallets are created, named, and saved;
`none` models an exception escaping `manageWallets` (impossible for a
`Crypto` whose `mnemonicToEntropy` accepts its own generated mnemonics). -/
def manageWallets (C : Crypto) (netCfg : Network) (projectId : String)
    (api : String → Except ApiError AddressInfo) (rng1 rng2 : Nat)
    (fs : FileState) : Option ManageResult :=
  match loadWalletsFromFile fs with
  | some existingWallets =>
    some ⟨fs, [], balanceCheckAndTransfer projectId api existingWallets⟩
  | none =>
    match createTestnetWallet C netCfg rng1 none,
        createTestnetWallet C netCfg rng2 none with
    | some w1, some w2 =>
      let wallets : List WalletRecord :=
        [⟨"Wallet 1", w1.address, w1.mnemonic, w1.type⟩,
         ⟨"Wallet 2", w2.address, w2.mnemonic, w2.type⟩]
      some ⟨some (some (saveWalletsToFile wallets)), wallets, none⟩
    | _, _ => none

/-- A concrete instantiation of the abstract primitives, used to evaluate
the embedded program on closed inputs. -/
def trivCrypto : Crypto where
  generateMnemonic _ := "generated mnemonic"
  mnemonicToEntropy _ := some "entropy"
  fromBip39Entropy _ := 1
  derive k i := 2 * k + i
  toPublic k := k + 1
  keyHash k := k + 2
  toBech32 a := "addr_test" ++ toString a.paymentKeyHash
  hashTx _ := 7
  sign d k := d + k

/-- A concrete balance collaborator: 10 ADA for `addrA`, 3 ADA for every
other address. -/
def trivApi (a : String) : Except ApiError AddressInfo :=
  .ok ⟨[⟨"lovelace", if a = "addrA" then 10000000 else 3000000⟩]⟩

lemma utxoSum_nil : utxoSum [] = 0 := rfl

lemma utxoSum_cons (u : Utxo) (l : List Utxo) :
    utxoSum (u :: l) = (u.lovelace : Int) + utxoSum l := by
  simp [utxoSum]

lemma utxoSum_append (l1 l2 : List Utxo) :
    utxoSum (l1 ++ l2) = utxoSum l1 + utxoSum l2 := by
  simp [utxoSum]

lemma utxoSum_nonneg (l : List Utxo) : 0 ≤ utxoSum l := by
  induction l with
  | nil => simp [utxoSum]
  | cons u t ih =>
    rw [utxoSum_cons]
    exact add_nonneg (Int.natCast_nonneg _) ih

/-- The selection loop selects an initial segment of the supplied list. -/
lemma selectLoop_initial (utxos : List Utxo) (acc th : Int) :
    ∃ q, (selectLoop utxos acc th).1 ++ q = utxos := by
  induction utxos generalizing acc with
  | nil => exact ⟨[], rfl⟩
  | cons u rest ih =>
    by_cases h : th ≤ acc + (u.lovelace : Int)
    · exact ⟨rest, by simp [selectLoop, h]⟩
    · obtain ⟨q, hq⟩ := ih (acc + (u.lovelace : Int))
      exact ⟨q, by simp [selectLoop, h, hq]⟩

/-- The loop's running total is the accumulator plus the value of what it
selected. -/
lemma selectLoop_total (utxos : List Utxo) (acc th : Int) :
    (selectLoop utxos acc th).2 = acc + utxoSum (selectLoop utxos acc th).1 := by
  induction utxos generalizing acc with
  | nil => simp [selectLoop, utxoSum]
  | cons u rest ih =>
    by_cases h : th ≤ acc + (u.lovelace : Int)
    · simp [selectLoop, h, utxoSum_cons, utxoSum]
    · simp only [selectLoop, if_neg h]
      rw [ih (acc + (u.lovelace : Int)), utxoSum_cons]
      ring

/-- If the loop stopped short of the threshold it consumed the whole
list. -/
lemma selectLoop_exhaust (utxos : List Utxo) (acc th : Int)
    (h : (selectLoop utxos acc th).2 < th) :
    (selectLoop utxos acc th).1 = utxos := by
  induction utxos generalizing acc with
  | nil => rfl
  | cons u rest ih =>
    by_cases hle : th ≤ acc + (u.lovelace : Int)
    · rw [selectLoop, if_pos hle] at h
      exact absurd h (not_lt.mpr hle)
    · rw [selectLoop, if_neg hle] at h ⊢
      simpa using ih (acc + (u.lovelace : Int)) h

/-- First-fit minimality: starting below the threshold, every proper
initial segment of the selection still leaves the running total below the
threshold. -/
lemma selectLoop_min (utxos : List Utxo) (acc th : Int) (hacc : acc < th) :
    ∀ p q, p ++ q = (selectLoop utxos acc th).1 → q ≠ [] →
      acc + utxoSum p < th := by
  induction utxos generalizing acc with
  | nil =>
    intro p q hpq hq
    rcases List.append_eq_nil.mp hpq with ⟨_, h2⟩
    exact absurd h2 hq
  | cons u rest ih =>
    intro p q hpq hq
    by_cases hle : th ≤ acc + (u.lovelace : Int)
    · rw [selectLoop, if_pos hle] at hpq
      rcases p with _ | ⟨x, p2⟩
      · simpa [utxoSum] using hacc
      · rw [List.cons_append, List.cons.injEq] at hpq
        rcases List.append_eq_nil.mp hpq.2 with ⟨_, h2⟩
        exact absurd h2 hq
    · rw [selectLoop, if_neg hle] at hpq
      rcases p with _ | ⟨x, p2⟩
      · simpa [utxoSum] using hacc
      · rw [List.cons_append, List.cons.injEq] at hpq
        obtain ⟨hx, hpq2⟩ := hpq
        subst hx
        have := ih (acc + (x.lovelace : Int)) (not_le.mp hle) p2 q hpq2 hq
        rw [utxoSum_cons]
        omega

/-- Case analysis of a successful `buildAndSign`: the UTXO list was
nonempty, the converted amount is nonnegative, the selection total reached
`amountLovelace + feeBuffer`, and the result is `sendSigned`. -/
lemma buildAndSign_eq_some {C : Crypto} {accountKey : Nat}
    {senderWallet : WalletRecord} {receiverAddress : String} {amountAda : ℚ}
    {utxos : List Utxo} {latestSlot : Nat} {tx : SignedTx}
    (h : buildAndSign C accountKey senderWallet receiverAddress amountAda
      utxos latestSlot = some tx) :
    utxos ≠ [] ∧ 0 ≤ adaToLovelace amountAda ∧
      adaToLovelace amountAda + feeBuffer ≤
        (selectLoop utxos 0 (adaToLovelace amountAda + feeBuffer)).2 ∧
      tx = sendSigned C accountKey senderWallet receiverAddress amountAda
        utxos latestSlot := by
  unfold buildAndSign at h
  split_ifs at h with h1 h2 h3
  exact ⟨by simpa [List.length_eq_zero] using h1, by omega, by omega,
    (Option.some.inj h).symm⟩

/-- Case analysis of a successful `sendAda`: some account key was derived
from the sender's mnemonic and `buildAndSign` succeeded with it. -/
lemma sendAda_eq_some {C : Crypto} {senderWallet : WalletRecord}
    {receiverAddress : String} {amountAda : ℚ} {utxos : List Utxo}
    {latestSlot : Nat} {tx : SignedTx}
    (h : sendAda C senderWallet receiverAddress amountAda utxos latestSlot =
      some tx) :
    ∃ accountKey,
      getPrivateKeyFromMnemonic C senderWallet.mnemonic = some accountKey ∧
      buildAndSign C accountKey senderWallet receiverAddress amountAda utxos
        latestSlot = some tx := by
  simpa [sendAda, Option.bind_eq_some] using h

/-- C1: every transaction body `sendAda` constructs satisfies the exact
conservation equation — the lovelace sum of the selected inputs equals the
sum of the output amounts plus the fee — and its output list consists of
the payment output followed by a change output exactly when
`change = totalInput - amount - fee` is strictly positive; a zero or
negative change is never encoded as an output. -/
theorem c1_value_conservation_and_change (C : Crypto)
    (senderWallet : WalletRecord) (receiverAddress : String) (amountAda : ℚ)
    (utxos : List Utxo) (latestSlot : Nat) (tx : SignedTx)
    (h : sendAda C senderWallet receiverAddress amountAda utxos latestSlot =
      some tx) :
    utxoSum tx.body.inputs =
      (tx.body.outputs.map TxOut.amount).sum + tx.body.fee ∧
    tx.body.outputs =
      TxOut.mk receiverAddress (adaToLovelace amountAda) ::
        (if 0 < utxoSum tx.body.inputs - adaToLovelace amountAda - feeBuffer
         then [TxOut.mk senderWallet.address
            (utxoSum tx.body.inputs - adaToLovelace amountAda - feeBuffer)]
         else []) := by
  obtain ⟨k, hk, hb⟩ := sendAda_eq_some h
  obtain ⟨hne, hnn, hge, rfl⟩ := buildAndSign_eq_some hb
  have htot : (selectLoop utxos 0 (adaToLovelace amountAda + feeBuffer)).2 =
      utxoSum (selectLoop utxos 0 (adaToLovelace amountAda + feeBuffer)).1 := by
    simpa using selectLoop_total utxos 0 (adaToLovelace amountAda + feeBuffer)
  constructor
  · simp only [sendSigned, sendBody, htot]
    split_ifs with hc
    · simp only [List.map_cons, List.map_nil, List.sum_cons, List.sum_nil]
      ring
    · simp only [List.map_cons, List.map_nil, List.sum_cons, List.sum_nil]
      have : utxoSum (selectLoop utxos 0 (adaToLovelace amountAda + feeBuffer)).1
          - adaToLovelace amountAda - feeBuffer = 0 := by
        rw [← htot]; omega
      omega
  · simp only [sendSigned, sendBody, htot]

/-- C2: on success the inputs `sendAda` selected are an initial segment of
the UTXO list in the order supplied, their total reaches
`amountLovelace + feeBuffer`, every proper initial segment of the
selection falls short of that threshold (first-fit), and a strictly
positive surplus over the threshold appears as the change output. -/
theorem c2_first_fit_selection (C : Crypto) (senderWallet : WalletRecord)
    (receiverAddress : String) (amountAda : ℚ) (utxos : List Utxo)
    (latestSlot : Nat) (tx : SignedTx)
    (h : sendAda C senderWallet receiverAddress amountAda utxos latestSlot =
      some tx) :
    (∃ q, tx.body.inputs ++ q = utxos) ∧
    adaToLovelace amountAda + feeBuffer ≤ utxoSum tx.body.inputs ∧
    (∀ p q, p ++ q = tx.body.inputs → q ≠ [] →
      utxoSum p < adaToLovelace amountAda + feeBuffer) ∧
    (0 < utxoSum tx.body.inputs - (adaToLovelace amountAda + feeBuffer) →
      TxOut.mk senderWallet.address
          (utxoSum tx.body.inputs - (adaToLovelace amountAda + feeBuffer)) ∈
        tx.body.outputs) := by
  obtain ⟨k, hk, hb⟩ := sendAda_eq_some h
  obtain ⟨hne, hnn, hge, rfl⟩ := buildAndSign_eq_some hb
  have htot : (selectLoop utxos 0 (adaToLovelace amountAda + feeBuffer)).2 =
      utxoSum (selectLoop utxos 0 (adaToLovelace amountAda + feeBuffer)).1 := by
    simpa using selectLoop_total utxos 0 (adaToLovelace amountAda + feeBuffer)
  have hth0 : (0 : Int) < adaToLovelace amountAda + feeBuffer := by
    unfold feeBuffer at *; omega
  refine ⟨?_, ?_, ?_, ?_⟩
  · simpa only [sendSigned, sendBody] using
      selectLoop_initial utxos 0 (adaToLovelace amountAda + feeBuffer)
  · simp only [sendSigned, sendBody]
    rw [← htot]; exact hge
  · intro p q hpq hq
    have := selectLoop_min utxos 0 (adaToLovelace amountAda + feeBuffer) hth0
      p q (by simpa only [sendSigned, sendBody] using hpq) hq
    omega
  · intro hpos
    simp only [sendSigned, sendBody, htot] at hpos ⊢
    have hc : 0 < utxoSum (selectLoop utxos 0
        (adaToLovelace amountAda + feeBuffer)).1 - adaToLovelace amountAda -
        feeBuffer := by omega
    rw [if_pos hc]
    have : utxoSum (selectLoop utxos 0 (adaToLovelace amountAda + feeBuffer)).1
        - adaToLovelace amountAda - feeBuffer =
        utxoSum (selectLoop utxos 0 (adaToLovelace amountAda + feeBuffer)).1
        - (adaToLovelace amountAda + feeBuffer) := by ring
    rw [← this]
    exact List.mem_cons_of_mem _ (List.mem_singleton_self _)

/-- C3: when the whole UTXO list totals less than
`amountLovelace + feeBuffer`, `sendAda` fails without assembling any
transaction — no body, no witness, nothing to submit. -/
theorem c3_insufficient_funds (C : Crypto) (senderWallet : WalletRecord)
    (receiverAddress : String) (amountAda : ℚ) (utxos : List Utxo)
    (latestSlot : Nat)
    (h : utxoSum utxos < adaToLovelace amountAda + feeBuffer) :
    sendAda C senderWallet receiverAddress amountAda utxos latestSlot =
      none := by
  unfold sendAda
  cases hk : getPrivateKeyFromMnemonic C senderWallet.mnemonic with
  | none => rfl
  | some k =>
    rw [Option.some_bind]
    unfold buildAndSign
    by_cases h0 : utxos.length = 0
    · rw [if_pos h0]
    · rw [if_neg h0]
      obtain ⟨q, hq⟩ :=
        selectLoop_initial utxos 0 (adaToLovelace amountAda + feeBuffer)
      have htot : (selectLoop utxos 0 (adaToLovelace amountAda + feeBuffer)).2 =
          utxoSum (selectLoop utxos 0 (adaToLovelace amountAda + feeBuffer)).1 := by
        simpa using selectLoop_total utxos 0 (adaToLovelace amountAda + feeBuffer)
      have hle : utxoSum (selectLoop utxos 0
          (adaToLovelace amountAda + feeBuffer)).1 ≤ utxoSum utxos := by
        have h2 := utxoSum_nonneg q
        have h3 : utxoSum ((selectLoop utxos 0
            (adaToLovelace amountAda + feeBuffer)).1 ++ q) = utxoSum utxos := by
          rw [hq]
        rw [utxoSum_append] at h3
        omega
      rw [if_pos (by omega)]

/-- C5: every signed transaction `sendAda` assembles carries exactly one
vkey witness, that witness is `make_vkey_witness` applied to the hash of
the transaction body alone (a function of `TxBody`, which contains no
witness data) and the spending private key, and the metadata field is
absent. -/
theorem c5_single_witness_no_metadata (C : Crypto)
    (senderWallet : WalletRecord) (receiverAddress : String) (amountAda : ℚ)
    (utxos : List Utxo) (latestSlot : Nat) (tx : SignedTx)
    (h : sendAda C senderWallet receiverAddress amountAda utxos latestSlot =
      some tx) :
    tx.vkeyWitnesses.length = 1 ∧ tx.metadata = none ∧
    ∃ accountKey,
      getPrivateKeyFromMnemonic C senderWallet.mnemonic = some accountKey ∧
      tx.vkeyWitnesses =
        [makeVkeyWitness C (C.hashTx tx.body)
          (C.derive (C.derive accountKey 0) 0)] := by
  obtain ⟨k, hk, hb⟩ := sendAda_eq_some h
  obtain ⟨hne, hnn, hge, rfl⟩ := buildAndSign_eq_some hb
  exact ⟨rfl, rfl, k, hk, rfl⟩

/-- C6: every transaction body `sendAda` builds sets its upper validity
slot (TTL) to the fetched current slot plus exactly 10000. -/
theorem c6_ttl_window (C : Crypto) (senderWallet : WalletRecord)
    (receiverAddress : String) (amountAda : ℚ) (utxos : List Utxo)
    (latestSlot : Nat) (tx : SignedTx)
    (h : sendAda C senderWallet receiverAddress amountAda utxos latestSlot =
      some tx) :
    tx.body.ttl = latestSlot + 10000 := by
  obtain ⟨k, hk, hb⟩ := sendAda_eq_some h
  obtain ⟨hne, hnn, hge, rfl⟩ := buildAndSign_eq_some hb
  rfl

lemma adaToLovelace_one : adaToLovelace 1 = 1000000 := by
  norm_num [adaToLovelace]

/-- A concrete sender wallet for evaluating the embedding. -/
def cWallet : WalletRecord :=
  ⟨"Wallet 1", "addrA", "seed words", "Testnet Address"⟩

/-- A 3 ADA UTXO. -/
def cUtxoA : Utxo := ⟨"00", 0, 3000000⟩

/-- A 2 ADA UTXO. -/
def cUtxoB : Utxo := ⟨"01", 1, 2000000⟩

/-- A 0.5 ADA UTXO, below the 1.2 ADA threshold of a 1 ADA spend. -/
def cUtxoSmall : Utxo := ⟨"02", 0, 500000⟩

/-- The account key `trivCrypto` derives from `cWallet`'s mnemonic. -/
def cAccountKey : Nat := deriveAccountKey trivCrypto 1

/-- The signed transaction of the concrete 1 ADA spend below. -/
def cTx : SignedTx :=
  sendSigned trivCrypto cAccountKey cWallet "addrB" 1 [cUtxoA, cUtxoB] 500

/-- Evaluating the embedded `sendAda` on a concrete 1 ADA spend from a
wallet holding a 3 ADA and a 2 ADA UTXO at slot 500. -/
lemma sendAda_concrete :
    sendAda trivCrypto cWallet "addrB" 1 [cUtxoA, cUtxoB] 500 = some cTx := by
  rw [sendAda,
    show getPrivateKeyFromMnemonic trivCrypto cWallet.mnemonic =
      some cAccountKey from rfl,
    Option.some_bind, buildAndSign]
  norm_num [adaToLovelace_one, selectLoop, cUtxoA, cUtxoB, feeBuffer]
  rfl

/-- C1 at the concrete spend: the conservation equation holds on the body
`sendAda` built. -/
theorem c1_witness :
    utxoSum cTx.body.inputs =
      (cTx.body.outputs.map TxOut.amount).sum + cTx.body.fee :=
  (c1_value_conservation_and_change trivCrypto cWallet "addrB" 1
    [cUtxoA, cUtxoB] 500 cTx sendAda_concrete).1

/-- C2 at the concrete spend: the selected inputs are an initial segment of
the supplied UTXO list and total at least 1200000 lovelace. -/
theorem c2_witness :
    (∃ q, cTx.body.inputs ++ q = [cUtxoA, cUtxoB]) ∧
    adaToLovelace 1 + feeBuffer ≤ utxoSum cTx.body.inputs :=
  ⟨(c2_first_fit_selection trivCrypto cWallet "addrB" 1 [cUtxoA, cUtxoB] 500
      cTx sendAda_concrete).1,
   (c2_first_fit_selection trivCrypto cWallet "addrB" 1 [cUtxoA, cUtxoB] 500
      cTx sendAda_concrete).2.1⟩

/-- C3 at the concrete failing spend: 500000 lovelace available, a 1 ADA
spend with the 0.2 ADA fee reserve fails with no transaction. -/
theorem c3_witness :
    utxoSum [cUtxoSmall] < adaToLovelace 1 + feeBuffer ∧
    sendAda trivCrypto cWallet "addrB" 1 [cUtxoSmall] 500 = none := by
  have h : utxoSum [cUtxoSmall] < adaToLovelace 1 + feeBuffer := by
    norm_num [utxoSum, cUtxoSmall, adaToLovelace_one, feeBuffer]
  exact ⟨h, c3_insufficient_funds trivCrypto cWallet "addrB" 1 [cUtxoSmall]
    500 h⟩

/-- C5 at the concrete spend: one vkey witness, no metadata. -/
theorem c5_witness :
    cTx.vkeyWitnesses.length = 1 ∧ cTx.metadata = none :=
  ⟨(c5_single_witness_no_metadata trivCrypto cWallet "addrB" 1
      [cUtxoA, cUtxoB] 500 cTx sendAda_concrete).1,
   (c5_single_witness_no_metadata trivCrypto cWallet "addrB" 1
      [cUtxoA, cUtxoB] 500 cTx sendAda_concrete).2.1⟩

/-- C6 at the concrete spend: TTL is slot 500 plus 10000. -/
theorem c6_witness : cTx.body.ttl = 500 + 10000 :=
  c6_ttl_window trivCrypto cWallet "addrB" 1 [cUtxoA, cUtxoB] 500 cTx
    sendAda_concrete

/-- C4: wallet derivation is deterministic.  The only nondeterministic
input of `createTestnetWallet` is the process random state, consumed solely
when no mnemonic is supplied; for a supplied mnemonic the whole pipeline —
mnemonic to entropy, root-key expansion, the hardened path 1852H/1815H/0H,
the non-hardened role/index steps, and address encoding — is a fixed
function of the mnemonic, so two calls return the identical wallet (in
particular the identical bech32 address string). -/
theorem c4_deterministic_derivation (C : Crypto) (netCfg : Network)
    (rng1 rng2 : Nat) (M : String) :
    createTestnetWallet C netCfg rng1 (some M) =
      createTestnetWallet C netCfg rng2 (some M) := rfl

/-- C10: for every mnemonic argument and every NETWORK configuration value,
`createTestnetWallet` behaves identically, the base address it encodes
carries the hardcoded testnet network discriminator, and the returned type
is the string `Testnet Address`. -/
theorem c10_testnet_tag_independent_of_config (C : Crypto)
    (net1 net2 : Network) (rng : Nat) (mnemonicArg : Option String) :
    createTestnetWallet C net1 rng mnemonicArg =
      createTestnetWallet C net2 rng mnemonicArg ∧
    (∀ accountKey,
      (walletBaseAddr C accountKey).network_id = testnetNetworkId) ∧
    (∀ w, createTestnetWallet C net1 rng mnemonicArg = some w →
      w.type = "Testnet Address") := by
  refine ⟨rfl, fun _ => rfl, fun w hw => ?_⟩
  simp only [createTestnetWallet] at hw
  cases hm : C.mnemonicToEntropy (mnemonicArg.getD (C.generateMnemonic rng)) with
  | none => rw [hm] at hw; exact absurd hw (by simp)
  | some seed =>
    rw [hm] at hw
    obtain rfl := Option.some.inj hw
    rfl

/-- C10 at the concrete primitives: the mainnet and preview configurations
produce the same wallet, whose network id is the testnet discriminator and
whose type is `Testnet Address`. -/
theorem c10_witness :
    createTestnetWallet trivCrypto Network.mainnet 0 (some "seed words") =
      createTestnetWallet trivCrypto Network.preview 0 (some "seed words") ∧
    (walletBaseAddr trivCrypto cAccountKey).network_id = testnetNetworkId ∧
    ({ mnemonic := "seed words",
       address := trivCrypto.toBech32 (walletBaseAddr trivCrypto cAccountKey),
       type := "Testnet Address" } : WalletInfo).type = "Testnet Address" :=
  ⟨(c10_testnet_tag_independent_of_config trivCrypto Network.mainnet
      Network.preview 0 (some "seed words")).1,
   (c10_testnet_tag_independent_of_config trivCrypto Network.mainnet
      Network.preview 0 (some "seed words")).2.1 cAccountKey,
   (c10_testnet_tag_independent_of_config trivCrypto Network.mainnet
      Network.preview 0 (some "seed words")).2.2 _ rfl⟩

/-- The ADA comparison of two fetched balances coincides with the lovelace
comparison: dividing by the positive constant 10^6 is order-preserving. -/
lemma ada_le_iff (a b : WB) : WB.ada a ≤ WB.ada b ↔ a.lovelace ≤ b.lovelace := by
  unfold WB.ada
  rw [div_le_div_iff_of_pos_right (by norm_num : (0:ℚ) < 1000000)]
  exact_mod_cast Iff.rfl

lemma ada_lt_iff (a b : WB) : WB.ada a < WB.ada b ↔ a.lovelace < b.lovelace := by
  rw [lt_iff_not_le, lt_iff_not_le]
  exact not_congr (ada_le_iff b a)

/-- C7 (behaviour at the failing input): `fetchBalance` never lets a
collaborator failure propagate — its outer handler converts every rethrown
non-404 error into the zero balance.  In particular a status-500 failure
with a credential configured yields zero rather than an error. -/
theorem c7_every_failure_becomes_zero :
    fetchBalance "apikey" (Except.error ⟨500⟩) = Except.ok ⟨0⟩ ∧
    ∀ projectId resp, ∃ b, fetchBalance projectId resp = Except.ok b := by
  refine ⟨rfl, fun projectId resp => ?_⟩
  unfold fetchBalance
  split_ifs with h
  · exact ⟨⟨0⟩, rfl⟩
  · cases resp with
    | ok info => exact ⟨_, rfl⟩
    | error e =>
      by_cases h4 : e.status_code = 404
      · exact ⟨⟨0⟩, by simp [h4]⟩
      · exact ⟨⟨0⟩, by simp [h4]⟩

/-- C8: with the balances fetched, `balanceCheckAndTransfer` reduces to the
sorted-comparison decision; the sorted list is a permutation of the input
whose head carries a maximal balance and whose second element carries a
balance maximal among the rest; the transfer happens exactly when the
highest balance strictly exceeds the second-highest (equal balances mean no
transfer), sending 1.0 ADA — a payment of `⌊1 * 10^6⌋ = 1000000`
lovelace — from the highest-balance wallet to the address of the
lower-balance wallet of the compared pair. -/
theorem c8_transfer_iff_strictly_higher :
    (∀ projectId api wallets wbs,
      withBalances projectId api wallets = Except.ok wbs →
      ¬wallets.length < 2 →
      balanceCheckAndTransfer projectId api wallets = transferDecision wbs) ∧
    (∀ wbs : List WB, (List.insertionSort adaGE wbs).Perm wbs) ∧
    (∀ wbs w0 w1 rest, List.insertionSort adaGE wbs = w0 :: w1 :: rest →
      (∀ w ∈ wbs, w.lovelace ≤ w0.lovelace) ∧
      (∀ w ∈ rest, w.lovelace ≤ w1.lovelace) ∧
      transferDecision wbs =
        (if w1.lovelace < w0.lovelace then
          some ⟨w0.wallet, w1.wallet.address, 1⟩ else none)) ∧
    adaToLovelace 1 = 1000000 := by
  refine ⟨?_, fun wbs => List.perm_insertionSort adaGE wbs, ?_,
    adaToLovelace_one⟩
  · intro projectId api wallets wbs hwb hlen
    unfold balanceCheckAndTransfer
    rw [if_neg hlen, hwb]
  · intro wbs w0 w1 rest hs
    have hsorted := List.sorted_insertionSort adaGE wbs
    rw [hs] at hsorted
    rw [List.sorted_cons] at hsorted
    obtain ⟨h0, hsorted1⟩ := hsorted
    rw [List.sorted_cons] at hsorted1
    obtain ⟨h1, -⟩ := hsorted1
    have hperm := List.perm_insertionSort adaGE wbs
    rw [hs] at hperm
    refine ⟨?_, ?_, ?_⟩
    · intro w hw
      have hw2 : w ∈ w0 :: w1 :: rest := hperm.mem_iff.mpr hw
      rcases List.mem_cons.mp hw2 with rfl | hw3
      · exact le_refl _
      · exact (ada_le_iff w w0).mp (h0 w hw3)
    · intro w hw
      exact (ada_le_iff w w1).mp (h1 w hw)
    · have hred : transferDecision wbs =
          if WB.ada w1 < WB.ada w0 then
            some ⟨w0.wallet, w1.wallet.address, 1⟩ else none := by
        unfold transferDecision
        rw [hs]
      rw [hred]
      by_cases hlt : w1.lovelace < w0.lovelace
      · rw [if_pos ((ada_lt_iff w1 w0).mpr hlt), if_pos hlt]
      · rw [if_neg (fun hc => hlt ((ada_lt_iff w1 w0).mp hc)), if_neg hlt]

/-- The second wallet of the concrete transfer scenario: its address gets
3 ADA from `trivApi`. -/
def cWalletB : WalletRecord :=
  ⟨"Wallet 2", "addrB", "other seed words", "Testnet Address"⟩

/-- C8 at the concrete scenario of the design: balances 10 ADA
(`cWallet` at `addrA`) and 3 ADA (`cWalletB`) trigger exactly the 1.0 ADA
`sendAda` call from the richer wallet to the poorer wallet's address. -/
theorem c8_witness :
    balanceCheckAndTransfer "apikey" trivApi [cWallet, cWalletB] =
      some ⟨cWallet, "addrB", 1⟩ := by
  have hwb : withBalances "apikey" trivApi [cWallet, cWalletB] =
      Except.ok [⟨cWallet, 10000000⟩, ⟨cWalletB, 3000000⟩] := rfl
  have hs : List.insertionSort adaGE
      [⟨cWallet, 10000000⟩, ⟨cWalletB, 3000000⟩] =
      [⟨cWallet, 10000000⟩, ⟨cWalletB, 3000000⟩] := by
    norm_num [List.insertionSort, List.orderedInsert, adaGE, WB.ada]
  have h1 := c8_transfer_iff_strictly_higher.1 "apikey" trivApi
    [cWallet, cWalletB] [⟨cWallet, 10000000⟩, ⟨cWalletB, 3000000⟩] hwb
    (by norm_num)
  have h3 := (c8_transfer_iff_strictly_higher.2.2.1
    [⟨cWallet, 10000000⟩, ⟨cWalletB, 3000000⟩] ⟨cWallet, 10000000⟩
    ⟨cWalletB, 3000000⟩ [] hs).2.2
  rw [h1, h3, if_pos (by norm_num)]
  rfl

/-- C9 (amended): a `manageWallets` run that loaded a wallet list leaves
the file untouched and creates nothing; a run that could not load one (the
file is absent — or present but unparsable, which `loadWalletsFromFile`
cannot distinguish) creates exactly two wallets from the two fresh random
states and persists exactly those two records. -/
theorem c9_wallet_file_lifecycle (C : Crypto) (netCfg : Network)
    (projectId : String) (api : String → Except ApiError AddressInfo)
    (rng1 rng2 : Nat) (fs : FileState) (res : ManageResult)
    (h : manageWallets C netCfg projectId api rng1 rng2 fs = some res) :
    (∀ ws, loadWalletsFromFile fs = some ws →
      res.fileAfter = fs ∧ res.created = []) ∧
    (loadWalletsFromFile fs = none →
      res.created.length = 2 ∧
      res.fileAfter = some (some (saveWalletsToFile res.created)) ∧
      ∃ w1 w2, createTestnetWallet C netCfg rng1 none = some w1 ∧
        createTestnetWallet C netCfg rng2 none = some w2 ∧
        res.created =
          [⟨"Wallet 1", w1.address, w1.mnemonic, w1.type⟩,
           ⟨"Wallet 2", w2.address, w2.mnemonic, w2.type⟩]) := by
  unfold manageWallets at h
  cases hl : loadWalletsFromFile fs with
  | some ws =>
    rw [hl] at h
    obtain rfl := Option.some.inj h
    exact ⟨fun _ _ => ⟨rfl, rfl⟩, fun hc => Option.noConfusion hc⟩
  | none =>
    rw [hl] at h
    cases h1 : createTestnetWallet C netCfg rng1 none with
    | none => rw [h1] at h; exact absurd h (by simp)
    | some w1 =>
      cases h2 : createTestnetWallet C netCfg rng2 none with
      | none => rw [h1, h2] at h; exact absurd h (by simp)
      | some w2 =>
        rw [h1, h2] at h
        obtain rfl := Option.some.inj h
        exact ⟨fun ws hws => absurd hws (by simp), fun _ =>
          ⟨rfl, rfl, w1, w2, rfl, rfl, rfl⟩⟩

/-- The two records the creation branch persists under the trivial
primitives (the same generated mnemonic for both random states). -/
def cCreated : List WalletRecord :=
  [⟨"Wallet 1", trivCrypto.toBech32 (walletBaseAddr trivCrypto cAccountKey),
    "generated mnemonic", "Testnet Address"⟩,
   ⟨"Wallet 2", trivCrypto.toBech32 (walletBaseAddr trivCrypto cAccountKey),
    "generated mnemonic", "Testnet Address"⟩]

/-- The `manageWallets` outcome on an absent file under the trivial
primitives. -/
def cManageRes : ManageResult := ⟨some (some cCreated), cCreated, none⟩

/-- C9 at a concrete absent-file run: exactly two wallets are created and
exactly they are persisted. -/
theorem c9_witness :
    cManageRes.created.length = 2 ∧
    cManageRes.fileAfter = some (some (saveWalletsToFile cManageRes.created)) := by
  have h := c9_wallet_file_lifecycle trivCrypto Network.preprod "" trivApi
    0 1 none cManageRes rfl
  exact ⟨(h.2 rfl).1, (h.2 rfl).2.1⟩

/-- C9 counterexample to the claim as stated: a wallet file that is present
but whose content does not parse (`JSON.parse` throws; `loadWalletsFromFile`
returns `null`) still triggers creation of two wallets and a rewrite of the
file, so "when the file is present, no wallet is created and the file is
not rewritten" fails. -/
theorem c9_counterexample :
    (some none : FileState) ≠ none ∧
    manageWallets trivCrypto Network.preprod "" trivApi 0 1 (some none) =
      some ⟨some (some cCreated), cCreated, none⟩ ∧
    cCreated ≠ [] ∧
    (some (some cCreated) : FileState) ≠ some none := by
  refine ⟨by simp, rfl, by simp [cCreated], by simp⟩

end WalletVerify
